import Mathlib

/-!
Verification development for the FindMyDevice (WMF) server.

The Go sources embedded here are:
* `src/src/mozilla.org/wmf/handlers.go` — HTTP/websocket handlers (`Register`,
  `Cmd`, `Queue`, `RestQueue`, `WSSocketHandler`, `verifyHawkHeader`,
  `rangeCheck`, `checkSig`, `updatePage`, `addClient`, `rmClient`).
* `src/wmf/storage/storage.go` — the storage layer (`StoreCommand`,
  `GetPending`, `Touch`, ...).

Go strings are modelled as `List Char` (the relevant data is ASCII), Go maps
as association lists (key order of Go map iteration is unspecified; every
theorem below depends only on map contents, not order), JSON-decoded values
as the inductive `JsonVal` (numbers restricted to integral values — no claim
depends on non-integral numerics), and Go panics as `Option.none` results.
Functions of this repository that are not under `src/` (the `hawk.go`
signature code and small utility helpers) are modelled from the spec; each
such definition's doc comment says so.
-/

namespace WMF

/-- Go strings, modelled as lists of characters. -/
abbrev Str := List Char

/-- Model of Go `strings.Contains(s, sub)`: is `sub` a substring of `s`. -/
def goContains : Str → Str → Bool
  | s@(_ :: rest), sub => sub.isPrefixOf s || goContains rest sub
  | [], sub => sub.isEmpty

/-- Lookup in a Go map modelled as an association list (`m[k]`). -/
def alookup (k : Str) : List (Str × α) → Option α
  | [] => none
  | (k', v) :: rest => if k' == k then some v else alookup k rest

/-- Assignment in a Go map modelled as an association list (`m[k] = v`):
replace an existing binding in place, otherwise append. -/
def aset (k : Str) (v : α) (m : List (Str × α)) : List (Str × α) :=
  if m.any (fun p => p.1 == k) then
    m.map (fun p => if p.1 == k then (k, v) else p)
  else m ++ [(k, v)]

/-! ## Registration: the accepts string (`Register`, handlers.go 996-1011) -/

/-- Model of the `buffer["accepts"]` collapse in `Register` (handlers.go
998-1004): take the first byte of each element of the accepts array
(`ke.(string)[0]`, a panic — `none` — on an empty element) and lowercase the
result (`strings.ToLower`). -/
def collapseAccepts : List Str → Option Str
  | [] => some []
  | [] :: _ => none
  | (c :: _) :: rest => (collapseAccepts rest).map (fun cs => c.toLower :: cs)

/-- Model of handlers.go 1006-1011: default an empty accepts string to
`"elrth"`, then append `"h"` unless `strings.Contains("h", accepts)` — note
the swapped argument order in the source: it asks whether `accepts` is a
substring of `"h"`, not whether `accepts` contains `"h"`. -/
def finalizeAccepts (acc : Str) : Str :=
  let acc' := if acc.length == 0 then ['e', 'l', 'r', 't', 'h'] else acc
  if goContains ['h'] acc' then acc' else acc' ++ ['h']

/-- Model of the accepts-string computation of `Register` (handlers.go
996-1011): `none` models the request body omitting the `accepts` key,
`some lst` the decoded accepts array. The result is `none` when the Go code
panics (an empty string element). -/
def registerAccepts (req : Option (List Str)) : Option Str :=
  match req with
  | none => some (finalizeAccepts [])
  | some lst =>
    if lst.length > 0 then
      match collapseAccepts lst with
      | none => none
      | some acc => some (finalizeAccepts acc)
    else some (finalizeAccepts [])

/-! ## JSON values and small Go helpers -/

/-- JSON-decoded Go values (`interface{}` after `encoding/json`): strings,
numbers (Go `float64`; restricted here to integral values, which every claim
below lives in), booleans, objects and `null`. JSON arrays do not occur in
the argument maps the claims are about. -/
inductive JsonVal where
  | str : Str → JsonVal
  | num : Int → JsonVal
  | bool : Bool → JsonVal
  | obj : List (Str × JsonVal) → JsonVal
  | null : JsonVal

/-- Argument maps (`replyType` / `map[string]interface{}`). -/
abbrev ArgsMap := List (Str × JsonVal)

/-- Device record (`storage.Device`, storage.go 49-62), restricted to the
fields the handler claims read (`PreviousPositions`, `LoggedIn`, `Pending`,
`LastExchange`, `AccessToken`, `Name`, `User` are not consulted by the
embedded operations). -/
structure Device where
  id : Str
  secret : Str
  pushUrl : Str
  hasPasscode : Bool
  accepts : Str

/-- Modelled from the spec: the `minInt` helper (not under `src/`) returning
the smaller of two ints. -/
def minInt (a b : Nat) : Nat := min a b

/-- Modelled from the spec: the `digitsOnly` rune filter used with
`strings.Map` (not under `src/`) — "digits-only numeric args"; non-digit
runes are dropped. -/
def digitsOnly (s : Str) : Str := s.filter (fun c => c.isDigit)

/-- Modelled from the spec: the `asciiOnly` rune filter used with
`strings.Map` (not under `src/`) — "ASCII-filtered text"; non-ASCII runes
are dropped. -/
def asciiOnly (s : Str) : Str := s.filter (fun c => c.toNat < 128)

/-- Digit-string parser underlying `goParseInt`. -/
def parseDigits (s : Str) : Option Nat :=
  if s.isEmpty || s.any (fun c => !c.isDigit) then none
  else some (s.foldl (fun n c => 10 * n + (c.toNat - '0'.toNat)) 0)

/-- Model of Go `strconv.ParseInt(s, 10, 64)`: optional sign followed by
decimal digits; anything else is an error (`none`). 64-bit overflow is not
modelled (every value reaching it in the embedded code has at most a few
digits). -/
def goParseInt : Str → Option Int
  | [] => none
  | '-' :: rest => (parseDigits rest).map (fun n => -(n : Int))
  | '+' :: rest => (parseDigits rest).map (fun n => (n : Int))
  | s => (parseDigits s).map (fun n => (n : Int))

/-- The `rangeCheck` helper (handlers.go 660-675): parse the string value,
returning 0 on a parse error, and clamp it into `[lo, hi]`. -/
def rangeCheck (s : Str) (lo hi : Int) : Int :=
  match goParseInt s with
  | none => 0
  | some val => if val < lo then lo else if val > hi then hi else val

/-- Decimal rendering of a nonnegative integer. -/
def natStr (n : Nat) : Str := (toString n).data

/-- Model of Go `fmt.Sprintf("%04d", n)`: decimal rendering zero-padded to
width 4 (sign included in the width, as in Go). -/
def formatPad04 (n : Int) : Str :=
  if n < 0 then
    let s := natStr (-n).toNat
    '-' :: (if s.length < 3 then List.replicate (3 - s.length) '0' ++ s else s)
  else
    let s := natStr n.toNat
    if s.length < 4 then List.replicate (4 - s.length) '0' ++ s else s

/-- Model of Go `strconv.FormatInt` / `strconv.FormatFloat(v, 'f', 0, 64)`
on an integral value: plain decimal rendering. -/
def formatInt (n : Int) : Str :=
  if n < 0 then '-' :: natStr (-n).toNat else natStr n.toNat

/-- Model of Go `fmt.Sprintf("%s", v)` on a JSON value: a string renders as
itself, any non-string renders as Go's verb-mismatch text (shown here in a
representative form — no claim depends on the exact rendering, only on the
function being total). -/
def goSprintfS : JsonVal → Str
  | .str s => s
  | .num n => ('%' :: '!' :: 's' :: '(' :: "float64=".data) ++ formatInt n ++ [')']
  | .bool b => ('%' :: '!' :: 's' :: '(' :: "bool=".data) ++
      (if b then "true".data else "false".data) ++ [')']
  | .obj _ => "map[]".data
  | .null => ('%' :: '!' :: 's' :: '(' :: '<' :: "nil".data) ++ ['>', ')']

/-! ## The UI command queue (`Queue`, handlers.go 1213-1331) -/

/-- Result of `Queue`: the `(status, error)` return pair, the per-command
reply map `rep` after `Queue` wrote into it, the envelope handed to
`StoreCommand` (`none` when the store is never called), and whether
`SendPush` was requested. -/
structure QueueResult where
  status : Nat
  err : Option Str
  rep : ArgsMap
  stored : Option (Char × ArgsMap)
  pushed : Bool

/-- Argument normalization of `Queue` (the `switch c` at handlers.go
1235-1290). Outer `none` models a Go panic (a failed runtime type
assertion); `some none` models the `default` branch (400 Invalid Command);
`some (some rargs)` the normalized argument map.

For `l`: a `c` value that is a string is truncated to its first 4 bytes,
digit-filtered, range-checked against `[0, maxL]` and `%04d`-formatted; a
`float64` `c` value panics (the source's `case float64` evaluates
`v.(int64)`, which fails on a float64); any other type leaves `vs` empty,
normalizing to `"0000"`. An `m` value must be a string (`v.(string)`),
anything else panics. For `r`/`t`: `d` is stringified per type, digit
filtered and range-checked against `[0, maxRT]`. For `e`: the argument map
is cleared. Any other code falls to the `default` branch. -/
def normArgs (c : Char) (args : ArgsMap) (maxL maxRT : Int) : Option (Option ArgsMap) :=
  if c == 'l' then
    let step1 : Option ArgsMap :=
      match alookup ['c'] args with
      | none => some args
      | some (.str s) =>
        some (aset ['c']
          (.str (formatPad04 (rangeCheck (digitsOnly (s.take (minInt 4 s.length))) 0 maxL)))
          args)
      | some (.num _) => none
      | some _ =>
        some (aset ['c'] (.str (formatPad04 (rangeCheck (digitsOnly []) 0 maxL))) args)
    match step1 with
    | none => none
    | some rargs =>
      match alookup ['m'] args with
      | none => some (some rargs)
      | some (.str s) =>
        some (some (aset ['m'] (.str (asciiOnly (s.take (minInt 100 s.length)))) rargs))
      | some _ => none
  else if c == 'r' || c == 't' then
    match alookup ['d'] args with
    | none => some (some args)
    | some v =>
      let vs : Str :=
        match v with
        | .str s => s
        | .num n => formatInt n
        | other => goSprintfS other
      some (some (aset ['d'] (.num (rangeCheck (digitsOnly vs) 0 maxRT)) args))
  else if c == 'e' then some (some [])
  else some none

/-- The `Queue` handler (handlers.go 1213-1331). `maxL` and `maxRT` are the
parsed `cmd.c.max` / `cmd.<c>.max` configuration values (defaults 9999 and
10500). An empty command string panics on `cmd[0]` (`none`). A command code
absent from the device's accepts string writes `error: 422` and the command
into the reply map and returns `(200, nil)` without touching the store.
Otherwise the arguments are normalized, the envelope is stored and a push is
sent; the store/push success path is modelled (their failure branches only
produce 503 server errors, which no claim is about). -/
def Queue (maxL maxRT : Int) (dev : Device) (cmd : Str) (args : ArgsMap)
    (rep : ArgsMap) : Option QueueResult :=
  match cmd with
  | [] => none
  | ch :: _ =>
    let c := ch.toLower
    if !(goContains dev.accepts [c]) then
      some { status := 200, err := none,
             rep := aset ['c', 'm', 'd'] (.str cmd) (aset "error".data (.num 422) rep),
             stored := none, pushed := false }
    else
      match normArgs c args maxL maxRT with
      | none => none
      | some none =>
        some { status := 400, err := some "Invalid Command".data, rep := rep,
               stored := none, pushed := false }
      | some (some rargs) =>
        some { status := 200, err := none, rep := rep,
               stored := some (c, rargs), pushed := true }

/-! ## Storage: the pendingCommands table (storage.go) -/

/-- A row of the `pendingCommands` table (storage.go 178): bigserial `id`,
`deviceId`, `time`, serialized command envelope `cmd`, and the command
`type`. -/
structure PendingRow where
  id : Nat
  deviceId : Str
  time : Nat
  cmd : Str
  ctype : Str
deriving DecidableEq

/-- Store effects the handlers can request of the storage layer. -/
inductive StoreEff where
  | setDeviceLock : Bool → StoreEff
  | setDeviceLocation : Int → Int → Int → Int → StoreEff
  | gcPosition : StoreEff
  | touch : StoreEff
  | deleteDevice : StoreEff
deriving DecidableEq

/-- The `StoreCommand` operation (storage.go 462-494): update `time` and
`cmd` of every row matching the device id and command type; if no row was
affected, insert a fresh row (`nextId` models the bigserial, `now` the
`dbNow()` timestamp). -/
def storeCommand (tbl : List PendingRow) (now nextId : Nat) (devId cmd ctype : Str) :
    List PendingRow :=
  let hit := fun (r : PendingRow) => r.deviceId == devId && r.ctype == ctype
  let updated := tbl.map (fun r => if hit r then { r with time := now, cmd := cmd } else r)
  if (tbl.filter hit).length == 0 then
    tbl ++ [{ id := nextId, deviceId := devId, time := now, cmd := cmd, ctype := ctype }]
  else updated

/-- The row `select ... order by time limit 1` picks: the earliest of the
candidates (ties resolved by list position; every claim below has a single
candidate). -/
def pickMinTime (best : PendingRow) : List PendingRow → PendingRow
  | [] => best
  | r :: rest => pickMinTime (if r.time < best.time then r else best) rest

/-- The `GetPending` operation (storage.go 388-412): select the earliest
pending row of the device; if one exists, delete it by its `id` and return
its `cmd`; in every case `Touch` the device. Returns the command string
(empty when none is pending), the table after the delete, and the store
effects. -/
def getPending (tbl : List PendingRow) (devId : Str) : Str × List PendingRow × List StoreEff :=
  match tbl.filter (fun r => r.deviceId == devId) with
  | [] => ([], tbl, [.touch])
  | m :: rest =>
    let chosen := pickMinTime m rest
    (chosen.cmd, tbl.filter (fun r => !(r.id == chosen.id)), [.touch])

/-! ## Device status reports (`updatePage`, handlers.go 569-631) -/

/-- Modelled from the spec: the `isTrue` truthiness helper (not under
`src/`) — a boolean is itself, a nonzero number is true, anything else is
false. No claim below depends on its value. -/
def isTrue : JsonVal → Bool
  | .bool b => b
  | .num n => !(n == 0)
  | _ => false

/-- Accumulator of the report loop of `updatePage`: the location fields
gathered so far and the store effects already performed. -/
structure UpdateSt where
  lat : Int
  lon : Int
  alt : Int
  ti : Int
  effs : List StoreEff

/-- The `for key, arg := range args` loop of `updatePage` (handlers.go
589-612), iterated in list order (Go map order is unspecified; the claims
below only exercise paths that do not depend on it). Keys shorter than two
bytes are skipped; the two-byte lowercased prefix selects the field.
`la`/`lo`/`al`/`ti` require a float64 (`arg.(float64)`, panic — `none` —
otherwise); a `ti` of zero returns early (`true` flag) with the effects
performed so far; `ha` performs `SetDeviceLock` immediately. -/
def updateLoop : List (Str × JsonVal) → UpdateSt → Option (UpdateSt × Bool)
  | [], st => some (st, false)
  | (key, arg) :: rest, st =>
    if key.length < 2 then updateLoop rest st
    else
      let k := (key.take 2).map Char.toLower
      if k == ['l', 'a'] then
        match arg with
        | .num n => updateLoop rest { st with lat := n }
        | _ => none
      else if k == ['l', 'o'] then
        match arg with
        | .num n => updateLoop rest { st with lon := n }
        | _ => none
      else if k == ['a', 'l'] then
        match arg with
        | .num n => updateLoop rest { st with alt := n }
        | _ => none
      else if k == ['t', 'i'] then
        match arg with
        | .num n => if n == 0 then some (st, true) else updateLoop rest { st with ti := n }
        | _ => none
      else if k == ['h', 'a'] then
        updateLoop rest { st with effs := st.effs ++ [.setDeviceLock (isTrue arg)] }
      else updateLoop rest st

/-- The `updatePage` handler (handlers.go 569-631), as the list of store
effects it performs (`none` models a panic). A report whose `ok` field is
`false` returns before any store write; a missing `ok` key skips the whole
block; an `ok` that is not a bool panics (`b.(bool)`). After the loop, when
`logPosition` is set the gathered location is written and positions are
garbage-collected. The final websocket push to a live client is not a store
effect. -/
def updatePage (args : ArgsMap) (logPosition : Bool) : Option (List StoreEff) :=
  match alookup ['o', 'k'] args with
  | none => some []
  | some (.bool b) =>
    if b == false then some []
    else
      match updateLoop args { lat := 0, lon := 0, alt := 0, ti := 0, effs := [] } with
      | none => none
      | some (st, early) =>
        if early then some st.effs
        else some (st.effs ++
          (if logPosition then [.setDeviceLocation st.lat st.lon st.alt st.ti, .gcPosition]
           else []))
  | some _ => none

/-- One iteration of the report loop of `Cmd` (handlers.go 1140-1183) for a
single `(cmd, args)` pair of the decoded body, as the store effects it
performs (`none` models a panic: an empty command key, or args that are
neither a bool nor an object). A code absent from the device's accepts
string is skipped. For `l`/`r`/`m`/`e`/`h` the device is `Touch`ed and
`updatePage` runs without position logging; for `t`, `updatePage` runs with
position logging; for `q`, the device is deleted when `cmd.q.allow` is
configured. -/
def cmdReportOne (allowQ : Bool) (accepts : Str) (cmd : Str) (args : JsonVal) :
    Option (List StoreEff) :=
  match cmd with
  | [] => none
  | ch :: _ =>
    let cs := ch.toLower
    if !(goContains accepts [cs]) then some []
    else
      let margs : Option ArgsMap :=
        match args with
        | .bool b => some [(cmd, .bool (isTrue (.bool b)))]
        | .obj m => some m
        | _ => none
      match margs with
      | none => none
      | some m =>
        if cs == 'l' || cs == 'r' || cs == 'm' || cs == 'e' || cs == 'h' then
          match updatePage m false with
          | none => none
          | some effs => some (.touch :: effs)
        else if cs == 't' then updatePage m true
        else if cs == 'q' then some (if allowQ then [.deleteDevice] else [])
        else some []

/-! ## Hawk signature verification (`verifyHawkHeader`, handlers.go 678-723) -/

/-- The request data entering signature canonicalization. -/
structure ReqInfo where
  method : Str
  path : Str
  host : Str
  port : Str
  contentType : Str

/-- The parsed Hawk authorization header: the required quoted fields plus
the optional `ext` and `hash` (empty when absent). -/
structure HawkParsed where
  id : Str
  ts : Str
  nonce : Str
  mac : Str
  ext : Str
  hash : Str

/-- Modelled from the spec: `Hawk.ParseAuthHeader` (hawk.go, not under
`src/`). The auth header is a structured list of quoted `key="value"`
fields; `id`, `ts`, `nonce` and `mac` are required and a header missing any
of them is malformed (`none`); `ext` and `hash` are optional. -/
def parseAuthHeader (fields : List (Str × Str)) : Option HawkParsed :=
  match alookup "id".data fields, alookup "ts".data fields,
        alookup "nonce".data fields, alookup "mac".data fields with
  | some i, some t, some n, some m =>
    some { id := i, ts := t, nonce := n, mac := m,
           ext := (alookup "ext".data fields).getD [],
           hash := (alookup "hash".data fields).getD [] }
  | _, _, _, _ => none

/-- Modelled from the spec: the canonicalization version tag. -/
def hawkVersionTag : Str := "hawk.1.header".data

/-- A newline, the canonical-string line separator. -/
def nl : Str := ['\n']

/-- Modelled from the spec (§4.1): the canonical string — version tag,
timestamp, nonce, HTTP method, request path, host, port, optional body
content-hash, optional extra string, each on its own line with a trailing
newline. -/
def canonicalString (ts nonce : Str) (req : ReqInfo) (hash ext : Str) : Str :=
  hawkVersionTag ++ nl ++ ts ++ nl ++ nonce ++ nl ++ req.method ++ nl ++
    req.path ++ nl ++ req.host ++ nl ++ req.port ++ nl ++ hash ++ nl ++ ext ++ nl

/-- Modelled from the spec: `Hawk.GenerateSignature` (hawk.go, not under
`src/`). When a body is present its content hash (`hashFn` over the payload
tag, content type and body) enters the canonical string; the signature is
the keyed hash (`hmacFn`, abstracting HMAC-SHA256) of the canonical string
under the device secret, as the source's base64 output. The claims hold for
every choice of `hashFn`/`hmacFn`, so both are parameters. -/
def generateSignature (hashFn : Str → Str) (hmacFn : Str → Str → Str) (req : ReqInfo)
    (extra body secret nonce ts : Str) : Str :=
  let contentHash :=
    if body.length == 0 then []
    else hashFn ("hawk.1.payload".data ++ nl ++ req.contentType ++ nl ++ body ++ nl)
  hmacFn secret (canonicalString ts nonce req contentHash extra)

/-- The `verifyHawkHeader` handler (handlers.go 678-723): `false` for a nil
device record; `true` when `hawk.disabled` is configured; `false` when the
auth header does not parse; otherwise the local signature is generated from
the remote header's nonce, timestamp and ext together with the request,
body and device secret, and compared byte-for-byte with the remote `mac`. -/
def verifyHawkHeader (hashFn : Str → Str) (hmacFn : Str → Str → Str)
    (hawkDisabled : Bool) (req : ReqInfo) (body : Str) (fields : List (Str × Str))
    (devRec : Option Device) : Bool :=
  match devRec with
  | none => false
  | some dev =>
    if hawkDisabled then true
    else
      match parseAuthHeader fields with
      | none => false
      | some rhawk =>
        generateSignature hashFn hmacFn req rhawk.ext body dev.secret rhawk.nonce rhawk.ts
          == rhawk.mac

/-! ## The device poll endpoint (`Cmd`, handlers.go 1061-1210) -/

/-- The serialized empty JSON object. -/
def emptyObj : Str := ['\x7b', '\x7d']

/-- An endpoint response: HTTP status, body, and the pendingCommands table
after the request. -/
structure CmdResponse where
  status : Nat
  body : Str
  table : List PendingRow

/-- The `Cmd` endpoint (handlers.go 1061-1210) on a bare poll (a body of at
most two bytes, so the report loop at 1126-1184 is not entered; report
handling is `cmdReportOne` above). An unresolvable device is 401; with
`hawk.disabled` unset, a request failing `verifyHawkHeader` is 401
(handlers.go 1112-1118); otherwise the pending command is taken from the
store and returned, an output shorter than two bytes being replaced by
`{}`. -/
def cmdEndpoint (hashFn : Str → Str) (hmacFn : Str → Str → Str) (hawkDisabled : Bool)
    (req : ReqInfo) (body : Str) (fields : List (Str × Str)) (devRec : Option Device)
    (tbl : List PendingRow) : CmdResponse :=
  match devRec with
  | none => { status := 401, body := "Unauthorized".data, table := tbl }
  | some dev =>
    if hawkDisabled == false &&
        !(verifyHawkHeader hashFn hmacFn hawkDisabled req body fields (some dev)) then
      { status := 401, body := "Unauthorized".data, table := tbl }
    else
      let (cmd, tbl', _) := getPending tbl dev.id
      { status := 200, body := if cmd.length < 2 then emptyObj else cmd, table := tbl' }

/-! ## The live-connection registry (handlers.go 88-110, 1866-1935) -/

/-- The package-global websocket state: the `Clients` map from device id to
socket (sockets named by numeric identifiers here) and the set of sockets
whose `Quit` flag has been raised. -/
structure WsState where
  clients : List (Str × Nat)
  quit : List Nat

/-- The `addClient` function (handlers.go 97-101): `Clients[id] = sock`. -/
def addClient (id : Str) (sock : Nat) (st : WsState) : WsState :=
  { st with clients := aset id sock st.clients }

/-- The `rmClient` function (handlers.go 104-110): `delete(Clients, id)` —
the entry for the device id is removed whichever socket it currently
holds. -/
def rmClient (id : Str) (st : WsState) : WsState :=
  { st with clients := st.clients.filter (fun p => !(p.1 == id)) }

/-- The takeover step of `WSSocketHandler` (handlers.go 1924-1930): if a
client is already registered for the device id, raise its `Quit` flag; then
`addClient` the new socket. -/
def wsTakeover (id : Str) (sock : Nat) (st : WsState) : WsState :=
  let st1 :=
    match alookup id st.clients with
    | some old => { st with quit := old :: st.quit }
    | none => st
  addClient id sock st1

/-- Number of registry entries held for a device id. -/
def countId (id : Str) (st : WsState) : Nat :=
  (st.clients.filter (fun p => p.1 == id)).length

/-- The `genSig` helper (handlers.go 727-742): error when the session holds
no device id, otherwise the hash (`hashFn`, abstracting the SHA-256 hex of
`genHash`) of the session's device id concatenated with its user id. -/
def genSig (hashFn : Str → Str) (sessDeviceId : Option Str) (sessUserId : Str) :
    Option Str :=
  match sessDeviceId with
  | none => none
  | some d => some (hashFn (d ++ sessUserId))

/-- The `checkSig` handler (handlers.go 745-757) exactly as compiled: its
first statement is `return true`, so it accepts every request; the
signature comparison below that statement is unreachable (it is embedded
separately as `checkSigDeadCode`). The URL path is modelled as its list of
`/`-separated segments. -/
def checkSig (_hashFn : Str → Str) (_path : List Str) (_sessDeviceId : Option Str)
    (_sessUserId : Str) : Bool := true

/-- The unreachable remainder of `checkSig` (handlers.go 749-756): compare
the second-to-last path segment against the session-derived signature,
failing on a `genSig` error. -/
def checkSigDeadCode (hashFn : Str → Str) (path : List Str) (sessDeviceId : Option Str)
    (sessUserId : Str) : Bool :=
  match path.get? (path.length - 2) with
  | none => false
  | some gotsig =>
    match genSig hashFn sessDeviceId sessUserId with
    | none => false
    | some testsig => testsig == gotsig

/-- The authentication stage of `WSSocketHandler` (handlers.go 1876-1888):
the handler proceeds to build and register a session socket iff `checkSig`
passes and the device record resolves (`GetDeviceInfo` outcome given as
`devRec`). -/
def wsHandshake (hashFn : Str → Str) (path : List Str) (sessDeviceId : Option Str)
    (sessUserId : Str) (devRec : Option Device) : Bool :=
  if !(checkSig hashFn path sessDeviceId sessUserId) then false
  else
    match devRec with
    | none => false
    | some _ => true

/-- Characterization of the argument maps on which `Queue`'s normalization
avoids every failing runtime type assertion: for a lock command, the `c`
value must not be a JSON number (the source's `case float64` evaluates
`v.(int64)`) and the `m` value, when present, must be a string
(`v.(string)`); every other command code is assertion-free. -/
def argTypeSafe (c : Char) (args : ArgsMap) : Bool :=
  if c == 'l' then
    (match alookup ['c'] args with
     | some (.num _) => false
     | _ => true) &&
    (match alookup ['m'] args with
     | none => true
     | some (.str _) => true
     | some _ => false)
  else true

/-- A device record accepting only the lock command, used as a concrete
test vector. -/
def devL : Device :=
  { id := ['d'], secret := ['s'], pushUrl := ['p'], hasPasscode := false,
    accepts := ['l'] }

/-- A device record accepting the default command set, used as a concrete
test vector. -/
def devAll : Device :=
  { id := ['d'], secret := ['s'], pushUrl := ['p'], hasPasscode := false,
    accepts := ['e', 'l', 'r', 't', 'h'] }

/-! ## Helper lemmas -/

theorem mem_finalizeAccepts (a : Str) : 'h' ∈ finalizeAccepts a := by
  match a with
  | [] => decide
  | [x] =>
    by_cases hx : x = 'h'
    · subst hx; decide
    · simp [finalizeAccepts, goContains, List.isPrefixOf, hx]
  | x :: y :: ys =>
    simp [finalizeAccepts, goContains, List.isPrefixOf]

/-! ## C6: registration always stores a heartbeat-accepting accepts string -/

/-- C6: for every device record produced by registration, the stored
accepts string contains the heartbeat code `h`, even when the registration
request omits `h` from its accepts list or omits the accepts list entirely
(whose default is `"elrth"`). -/
theorem c6_accepts_contains_heartbeat (req : Option (List Str)) (acc : Str)
    (h : registerAccepts req = some acc) : 'h' ∈ acc := by
  unfold registerAccepts at h
  match req with
  | none =>
    simp only [Option.some.injEq] at h
    exact h ▸ mem_finalizeAccepts []
  | some lst =>
    by_cases hl : lst.length > 0
    · simp only [hl, if_true] at h
      match hc : collapseAccepts lst with
      | none => rw [hc] at h; exact absurd h (by simp)
      | some a0 =>
        rw [hc] at h
        simp only [Option.some.injEq] at h
        exact h ▸ mem_finalizeAccepts a0
    · simp only [hl, if_false] at h
      simp only [Option.some.injEq] at h
      exact h ▸ mem_finalizeAccepts []

/-- C6 witness: a registration body without an accepts list stores
`"elrthh"`, which contains `h`. -/
theorem c6_accepts_contains_heartbeat_witness :
    registerAccepts none = some "elrthh".data ∧ 'h' ∈ "elrthh".data :=
  ⟨by decide, c6_accepts_contains_heartbeat none "elrthh".data (by decide)⟩

/-! ## C2: the registry after a live-connection takeover -/

/-- C2: the claim says that after a second live connection registers for a
device id, superseding the first (its `Quit` flag is raised and it
terminates and deregisters itself), the registry ends with exactly one
entry for that id — the new connection. The code raises the flag and holds
exactly one entry right after the takeover, but the superseded connection's
cleanup (`rmClient`, handlers.go 104-110) deletes by device id only, so it
removes the NEW connection's entry: the registry ends with zero entries for
the id while the new connection is still live. -/
theorem c2_registry_takeover_bug :
    1 ∈ (wsTakeover ['d'] 2 (wsTakeover ['d'] 1 { clients := [], quit := [] })).quit ∧
    countId ['d'] (wsTakeover ['d'] 2 (wsTakeover ['d'] 1 { clients := [], quit := [] })) = 1 ∧
    (wsTakeover ['d'] 2 (wsTakeover ['d'] 1 { clients := [], quit := [] })).clients
      = [(['d'], 2)] ∧
    countId ['d']
      (rmClient ['d'] (wsTakeover ['d'] 2 (wsTakeover ['d'] 1 { clients := [], quit := [] })))
      = 0 := by
  decide

/-! ## C7: a report with ok:false -/

/-- C7 counterexample: the claim says handling a report whose argument map
contains `ok:false` performs no touch of the last-exchange timestamp. But
the `Cmd` report loop (handlers.go 1159-1161) calls `store.Touch` for an
accepted `h` (and `l`/`r`/`m`/`e`) report before `updatePage` ever looks at
`ok`: handling `("h", ok:false)` on a device accepting `h` produces exactly
a touch effect. -/
theorem c7_okfalse_touch_counterexample :
    cmdReportOne false ['h'] ['h'] (.obj [("ok".data, .bool false)])
      = some [StoreEff.touch] ∧
    StoreEff.touch ∈ [StoreEff.touch] := by
  exact ⟨rfl, by decide⟩

/-! ## C8: lock-code normalization -/

/-- C8: queuing a lock command whose lock-code argument is `"99999"` with
configured maximum 9999 stores the normalized code `"9999"` (the code takes
the first four bytes, digit-filters, range-checks into `[0, 9999]` and
`%04d`-formats). -/
theorem c8_lockcode_normalized :
    Queue 9999 10500 devL ['l'] [(['c'], .str "99999".data)] []
      = some { status := 200, err := none, rep := [],
               stored := some ('l', [(['c'], .str "9999".data)]), pushed := true } := by
  rfl

/-! ## C9: the websocket handshake signature check -/

/-- C9: the claim says an incoming live-connection request must pass the
handshake signature check (path signature segment equal to the
session-derived signature) and is aborted before registration otherwise.
But `checkSig` (handlers.go 745-757) opens with `return true`: the
comparison is dead code. A request whose path signature segment (`"BAD"`)
differs from the session-derived signature (the comparison the dead code
would make returns `false`) still passes `checkSig` and proceeds through
the handshake to registration. -/
theorem c9_checksig_bypassed :
    checkSig (fun _ => ['X']) [[], "v1".data, "ws".data, "BAD".data, ['d']]
        (some ['d']) ['u'] = true ∧
    checkSigDeadCode (fun _ => ['X']) [[], "v1".data, "ws".data, "BAD".data, ['d']]
        (some ['d']) ['u'] = false ∧
    wsHandshake (fun _ => ['X']) [[], "v1".data, "ws".data, "BAD".data, ['d']]
        (some ['d']) ['u'] (some devAll) = true := by
  exact ⟨rfl, rfl, rfl⟩

/-! ## C10: totality of Queue over JSON argument shapes -/

/-- C10 counterexample: the claim says `Queue` returns a `(status, error)`
pair whatever the JSON shape of each argument value. But a lock command
whose `c` argument is a JSON number hits the source's `case float64`, which
evaluates the type assertion `v.(int64)` on a float64 and panics
(handlers.go 1247-1248): `Queue` does not return. -/
theorem c10_queue_panics_on_numeric_lock_code :
    Queue 9999 10500 devL ['l'] [(['c'], .num 1234)] [] = none := by
  rfl

/-! ## Association-list lemmas -/

theorem alookup_aset_self (k : Str) (v : α) (m : List (Str × α)) :
    alookup k (aset k v m) = some v := by
  induction m with
  | nil => simp [aset, alookup]
  | cons p rest ih =>
    by_cases hp : p.1 = k <;> by_cases hr : rest.any (fun q => q.1 == k) <;>
      simp [aset, alookup, hp, hr] at ih ⊢ <;> simpa using ih

theorem alookup_map_upd (k1 k2 : Str) (v : α) (h : k1 ≠ k2) (m : List (Str × α)) :
    alookup k2 (m.map (fun p => if p.1 == k1 then (k1, v) else p)) = alookup k2 m := by
  induction m with
  | nil => rfl
  | cons p rest ih =>
    by_cases hp : p.1 = k1
    · have hhead : (if p.1 == k1 then (k1, v) else p) = (k1, v) := by simp [hp]
      rw [List.map_cons, hhead]
      have hp2 : ¬(p.1 = k2) := by rw [hp]; exact h
      simpa [alookup, h, hp2] using ih
    · have hhead : (if p.1 == k1 then (k1, v) else p) = p := by simp [hp]
      rw [List.map_cons, hhead]
      by_cases hp2 : p.1 = k2
      · simp [alookup, hp2]
      · simpa [alookup, hp2] using ih

theorem alookup_append_single (k1 k2 : Str) (v : α) (h : k1 ≠ k2) (m : List (Str × α)) :
    alookup k2 (m ++ [(k1, v)]) = alookup k2 m := by
  induction m with
  | nil => simp [alookup, h]
  | cons p rest ih =>
    by_cases hpk2 : p.1 = k2 <;> simp [alookup, hpk2, ih]

theorem alookup_aset_ne (k1 k2 : Str) (v : α) (m : List (Str × α))
    (h : k1 ≠ k2) : alookup k2 (aset k1 v m) = alookup k2 m := by
  unfold aset
  by_cases hm : m.any (fun p => p.1 == k1)
  · simp only [hm, if_true]
    exact alookup_map_upd k1 k2 v h m
  · simp only [hm, if_false]
    exact alookup_append_single k1 k2 v h m

/-! ## C4: unacceptable commands never reach the store -/

/-- C4: for every device record and every command whose (lowercased first)
code is absent from the device's accepts string, `Queue` makes no call to
the store (handlers.go 1224-1232: it returns before `storage.Open` /
`StoreCommand`), writes `error: 422` and the command into the per-command
reply map, and returns success status 200 with a nil error. -/
theorem c4_unacceptable_no_store (maxL maxRT : Int) (dev : Device) (ch : Char)
    (rest : Str) (args rep : ArgsMap)
    (h : goContains dev.accepts [ch.toLower] = false) :
    Queue maxL maxRT dev (ch :: rest) args rep
      = some { status := 200, err := none,
               rep := aset "cmd".data (.str (ch :: rest))
                        (aset "error".data (.num 422) rep),
               stored := none, pushed := false } ∧
    alookup "error".data
        (aset "cmd".data (.str (ch :: rest)) (aset "error".data (.num 422) rep))
      = some (.num 422) := by
  constructor
  · simp [Queue, h]
  · rw [alookup_aset_ne "cmd".data "error".data _ _ (by decide)]
    exact alookup_aset_self _ _ _

/-- C4 witness: a ring command on a device accepting only `l` is rejected
with a 422 reply-map entry, success status and no store call. -/
theorem c4_unacceptable_no_store_witness :
    goContains devL.accepts ['r'] = false ∧
    Queue 9999 10500 devL ['r'] [] []
      = some { status := 200, err := none,
               rep := aset "cmd".data (.str ['r']) (aset "error".data (.num 422) []),
               stored := none, pushed := false } ∧
    alookup "error".data
        (aset "cmd".data (.str ['r']) (aset "error".data (.num 422) ([] : ArgsMap)))
      = some (.num 422) :=
  ⟨by decide,
   (c4_unacceptable_no_store 9999 10500 devL 'r' [] [] [] (by decide)).1,
   (c4_unacceptable_no_store 9999 10500 devL 'r' [] [] [] (by decide)).2⟩

/-! ## C3: StoreCommand overwrites per device and command type -/

theorem filter_map_pres (p : α → Bool) (f : α → α) (hpf : ∀ a, p (f a) = p a) (l : List α) :
    (l.map (fun a => if p a then f a else a)).filter p = (l.filter p).map f := by
  induction l with
  | nil => rfl
  | cons a rest ih =>
    by_cases ha : p a = true
    · simp [ha, hpf, ih]
    · simp [ha, ih]

/-- C3: for every device and command type with at most one pending row (the
invariant `StoreCommand` itself maintains), storing a command and then a
second command of the same type leaves exactly one pending row for that
device and type, and its content is the second command (storage.go 462-494:
the update-then-insert makes the second store an overwrite, not an
append). -/
theorem c3_store_overwrite (tbl : List PendingRow) (now1 now2 id1 id2 : Nat)
    (devId c1 c2 ty : Str)
    (h : (tbl.filter (fun r => r.deviceId == devId && r.ctype == ty)).length ≤ 1) :
    ∃ i, ((storeCommand (storeCommand tbl now1 id1 devId c1 ty) now2 id2 devId c2 ty).filter
        (fun r => r.deviceId == devId && r.ctype == ty))
      = [{ id := i, deviceId := devId, time := now2, cmd := c2, ctype := ty }] := by
  have hpf1 : ∀ r : PendingRow,
      ((PendingRow.mk r.id r.deviceId now1 c1 r.ctype).deviceId == devId &&
       (PendingRow.mk r.id r.deviceId now1 c1 r.ctype).ctype == ty)
      = (r.deviceId == devId && r.ctype == ty) := fun r => rfl
  have hpf2 : ∀ r : PendingRow,
      ((PendingRow.mk r.id r.deviceId now2 c2 r.ctype).deviceId == devId &&
       (PendingRow.mk r.id r.deviceId now2 c2 r.ctype).ctype == ty)
      = (r.deviceId == devId && r.ctype == ty) := fun r => rfl
  cases hfil : tbl.filter (fun r => r.deviceId == devId && r.ctype == ty) with
  | nil =>
    have ht1 : storeCommand tbl now1 id1 devId c1 ty
        = tbl ++ [PendingRow.mk id1 devId now1 c1 ty] := by
      simp [storeCommand, hfil]
    rw [ht1]
    have hfil1 : (tbl ++ [PendingRow.mk id1 devId now1 c1 ty]).filter
        (fun r => r.deviceId == devId && r.ctype == ty)
        = [PendingRow.mk id1 devId now1 c1 ty] := by
      rw [List.filter_append, hfil]
      simp
    refine ⟨id1, ?_⟩
    simp only [storeCommand, hfil1, List.length_cons, List.length_nil]
    rw [if_neg (by decide)]
    rw [filter_map_pres (fun x : PendingRow => x.deviceId == devId && x.ctype == ty)
        (fun x => PendingRow.mk x.id x.deviceId now2 c2 x.ctype) hpf2, hfil1]
    rfl
  | cons r rest =>
    have hrest : rest = [] := by
      rw [hfil] at h
      simpa using h
    subst hrest
    have hrmem : r ∈ tbl.filter (fun x => x.deviceId == devId && x.ctype == ty) := by
      rw [hfil]; exact List.mem_cons_self r []
    have hrhit : (r.deviceId == devId && r.ctype == ty) = true :=
      (List.mem_filter.mp hrmem).2
    have hrdev : r.deviceId = devId := by
      have := (Bool.and_eq_true _ _).mp hrhit
      exact eq_of_beq this.1
    have hrty : r.ctype = ty := by
      have := (Bool.and_eq_true _ _).mp hrhit
      exact eq_of_beq this.2
    have ht1 : storeCommand tbl now1 id1 devId c1 ty
        = tbl.map (fun x => if x.deviceId == devId && x.ctype == ty
            then PendingRow.mk x.id x.deviceId now1 c1 x.ctype else x) := by
      simp [storeCommand, hfil]
    set t1 := storeCommand tbl now1 id1 devId c1 ty with ht1d
    have hfil1 : t1.filter (fun x => x.deviceId == devId && x.ctype == ty)
        = [PendingRow.mk r.id r.deviceId now1 c1 r.ctype] := by
      rw [ht1, filter_map_pres (fun x : PendingRow => x.deviceId == devId && x.ctype == ty)
          (fun x => PendingRow.mk x.id x.deviceId now1 c1 x.ctype) hpf1, hfil]
      rfl
    refine ⟨r.id, ?_⟩
    simp only [storeCommand, hfil1, List.length_cons, List.length_nil]
    rw [if_neg (by decide)]
    rw [filter_map_pres (fun x : PendingRow => x.deviceId == devId && x.ctype == ty)
        (fun x => PendingRow.mk x.id x.deviceId now2 c2 x.ctype) hpf2, hfil1]
    simp [hrdev, hrty]

/-- C3 witness: two stores of lock envelopes for a fresh device leave one
row holding the second envelope. -/
theorem c3_store_overwrite_witness :
    (([] : List PendingRow).filter
        (fun r => r.deviceId == ['d'] && r.ctype == ['l'])).length ≤ 1 ∧
    ∃ i, ((storeCommand (storeCommand [] 1 10 ['d'] ['a'] ['l']) 2 11 ['d'] ['b'] ['l']).filter
        (fun r => r.deviceId == ['d'] && r.ctype == ['l']))
      = [{ id := i, deviceId := ['d'], time := 2, cmd := ['b'], ctype := ['l'] }] :=
  ⟨by decide, c3_store_overwrite [] 1 2 10 11 ['d'] ['a'] ['b'] ['l'] (by decide)⟩

/-- C7 amended: a report whose argument map carries `ok:false` leaves the
stored location and passcode state unchanged — `updatePage` performs no
store effect at all — but the last-exchange timestamp is NOT left unchanged:
the `Cmd` report loop touches the device for every accepted
`l`/`r`/`m`/`e`/`h` report (handlers.go 1161) before `updatePage` inspects
`ok`, so handling such a report performs exactly the touch. -/
theorem c7_okfalse_frame_amended (args : ArgsMap) (lp : Bool)
    (h : alookup "ok".data args = some (.bool false)) :
    updatePage args lp = some [] ∧
    ∀ (allowQ : Bool) (accepts : Str) (ch : Char) (rest : Str),
      (ch.toLower == 'l' || ch.toLower == 'r' || ch.toLower == 'm' ||
        ch.toLower == 'e' || ch.toLower == 'h') = true →
      goContains accepts [ch.toLower] = true →
      cmdReportOne allowQ accepts (ch :: rest) (.obj args) = some [StoreEff.touch] := by
  have hup : ∀ b : Bool, updatePage args b = some [] := by
    intro b
    simp [updatePage, h]
  refine ⟨hup lp, ?_⟩
  intro allowQ accepts ch rest hc hacc
  simp [cmdReportOne, hacc, hc, hup false]

/-- C7 amended witness: an `ok:false` heartbeat report on a device
accepting `h` writes no location, no passcode state — but it does touch. -/
theorem c7_okfalse_frame_amended_witness :
    alookup "ok".data [("ok".data, JsonVal.bool false)] = some (.bool false) ∧
    updatePage [("ok".data, JsonVal.bool false)] true = some [] ∧
    cmdReportOne false ['e', 'h'] ['h'] (.obj [("ok".data, JsonVal.bool false)])
      = some [StoreEff.touch] :=
  ⟨rfl,
   (c7_okfalse_frame_amended [("ok".data, JsonVal.bool false)] true rfl).1,
   (c7_okfalse_frame_amended [("ok".data, JsonVal.bool false)] true rfl).2
     false ['e', 'h'] 'h' [] (by decide) (by decide)⟩

/-! ## C10 amended: totality of Queue away from the two bad assertions -/

theorem normArgs_total (c : Char) (args : ArgsMap) (maxL maxRT : Int)
    (h : argTypeSafe c args = true) : (normArgs c args maxL maxRT).isSome = true := by
  by_cases hc : (c == 'l') = true
  · rw [argTypeSafe, if_pos hc] at h
    obtain ⟨h1, h2⟩ := (Bool.and_eq_true _ _).mp h
    rw [normArgs, if_pos hc]
    cases hC : alookup ['c'] args with
    | none =>
      simp only [hC]
      cases hM : alookup ['m'] args with
      | none => simp
      | some w => rw [hM] at h2; cases w <;> simp_all
    | some v =>
      rw [hC] at h1
      cases v <;> simp_all <;>
        (cases hM : alookup ['m'] args with
         | none => simp
         | some w => rw [hM] at h2; cases w <;> simp_all)
  · rw [normArgs, if_neg (by simp_all)]
    by_cases hrt : (c == 'r' || c == 't') = true
    · rw [if_pos hrt]
      cases hD : alookup ['d'] args <;> simp
    · rw [if_neg (by simp_all)]
      by_cases he : (c == 'e') = true
      · rw [if_pos he]; simp
      · rw [if_neg (by simp_all)]; simp

/-- C10 amended: `Queue` is total at its public interface for every device
record, nonempty command string and JSON-decoded argument map whose values
avoid the two failing runtime type assertions of the lock branch — a
numeric `c` (the source's `v.(int64)` inside `case float64`, handlers.go
1247-1248) and a non-string `m` (`v.(string)`, handlers.go 1257): on every
such input it returns a `(status, error)` pair. -/
theorem c10_queue_total_amended (maxL maxRT : Int) (dev : Device) (ch : Char)
    (rest : Str) (args rep : ArgsMap)
    (h : argTypeSafe ch.toLower args = true) :
    (Queue maxL maxRT dev (ch :: rest) args rep).isSome = true := by
  rw [Queue]
  by_cases hacc : goContains dev.accepts [ch.toLower] = true
  · simp only [hacc, Bool.not_true, Bool.false_eq_true, if_false]
    obtain ⟨x, hx⟩ := Option.isSome_iff_exists.mp
      (normArgs_total ch.toLower args maxL maxRT h)
    rw [hx]
    cases x <;> simp
  · have hacc' : goContains dev.accepts [ch.toLower] = false := by
      simpa using hacc
    simp [hacc']

/-- C10 amended witness: a lock command with a string lock code and string
message returns a result. -/
theorem c10_queue_total_amended_witness :
    argTypeSafe 'l'.toLower [(['c'], JsonVal.str ['1']), (['m'], JsonVal.str ['h', 'i'])]
      = true ∧
    (Queue 9999 10500 devL ['l']
      [(['c'], JsonVal.str ['1']), (['m'], JsonVal.str ['h', 'i'])] []).isSome = true :=
  ⟨by decide,
   c10_queue_total_amended 9999 10500 devL 'l' []
     [(['c'], JsonVal.str ['1']), (['m'], JsonVal.str ['h', 'i'])] [] (by decide)⟩

/-! ## C1: Hawk verification fails closed and the endpoint answers 401 -/

/-- C1: with Hawk verification enabled, for every request whose
authorization header is malformed (does not parse) or whose locally
computed signature differs from the remote `mac`, `verifyHawkHeader`
returns `false` — never an ambiguous pass — and the `Cmd` endpoint responds
401 Unauthorized (handlers.go 678-723 and 1112-1118). The statement is
universally quantified over the hash and keyed-hash functions, so it holds
for the real SHA-256/HMAC instances. -/
theorem c1_hawk_fail_closed (hashFn : Str → Str) (hmacFn : Str → Str → Str)
    (req : ReqInfo) (body : Str) (fields : List (Str × Str)) (dev : Device)
    (tbl : List PendingRow)
    (h : parseAuthHeader fields = none ∨
      ∃ p, parseAuthHeader fields = some p ∧
        generateSignature hashFn hmacFn req p.ext body dev.secret p.nonce p.ts ≠ p.mac) :
    verifyHawkHeader hashFn hmacFn false req body fields (some dev) = false ∧
    (cmdEndpoint hashFn hmacFn false req body fields (some dev) tbl).status = 401 := by
  have hv : verifyHawkHeader hashFn hmacFn false req body fields (some dev) = false := by
    rcases h with hp | ⟨p, hp, hne⟩
    · simp [verifyHawkHeader, hp]
    · simp [verifyHawkHeader, hp]
      exact hne
  exact ⟨hv, by simp [cmdEndpoint, hv]⟩

/-- C1 witness: an empty header field list is malformed (no `mac`), so
verification fails and the endpoint answers 401. -/
theorem c1_hawk_fail_closed_witness :
    verifyHawkHeader (fun _ => ['X']) (fun _ _ => ['Y']) false
        ⟨"POST".data, ['/'], ['h'], "80".data, []⟩ [] [] (some devL) = false ∧
    (cmdEndpoint (fun _ => ['X']) (fun _ _ => ['Y']) false
        ⟨"POST".data, ['/'], ['h'], "80".data, []⟩ [] [] (some devL) []).status = 401 :=
  c1_hawk_fail_closed (fun _ => ['X']) (fun _ _ => ['Y'])
    ⟨"POST".data, ['/'], ['h'], "80".data, []⟩ [] [] devL [] (Or.inl rfl)

/-! ## C5: an authenticated poll returns the pending command and consumes it -/

/-- C5: for a device holding exactly one pending command, an authenticated
poll of the `Cmd` endpoint (Hawk verification enabled and passing) returns
exactly that command's envelope as the body and deletes it from the store
(storage.go 388-412), so an immediately following authenticated poll
returns the empty object. -/
theorem c5_poll_returns_and_consumes (hashFn : Str → Str) (hmacFn : Str → Str → Str)
    (req : ReqInfo) (body : Str) (fields : List (Str × Str)) (dev : Device)
    (tbl : List PendingRow) (row : PendingRow)
    (hrow : tbl.filter (fun r => r.deviceId == dev.id) = [row])
    (hlen : 2 ≤ row.cmd.length)
    (hauth : verifyHawkHeader hashFn hmacFn false req body fields (some dev) = true) :
    (cmdEndpoint hashFn hmacFn false req body fields (some dev) tbl).status = 200 ∧
    (cmdEndpoint hashFn hmacFn false req body fields (some dev) tbl).body = row.cmd ∧
    ((cmdEndpoint hashFn hmacFn false req body fields (some dev) tbl).table.filter
        (fun r => r.deviceId == dev.id)) = [] ∧
    (cmdEndpoint hashFn hmacFn false req body fields (some dev)
        (cmdEndpoint hashFn hmacFn false req body fields (some dev) tbl).table).body
      = emptyObj := by
  have hgp : getPending tbl dev.id
      = (row.cmd, tbl.filter (fun r => !(r.id == row.id)), [.touch]) := by
    rw [getPending, hrow]
    rfl
  have hfilcomm : (tbl.filter (fun r => !(r.id == row.id))).filter
      (fun r => r.deviceId == dev.id)
      = (tbl.filter (fun r => r.deviceId == dev.id)).filter
        (fun r => !(r.id == row.id)) := by
    rw [List.filter_filter, List.filter_filter]
    exact List.filter_congr (fun a _ => by rw [Bool.and_comm])
  have ht1 : (tbl.filter (fun r => !(r.id == row.id))).filter
      (fun r => r.deviceId == dev.id) = [] := by
    rw [hfilcomm, hrow]
    simp
  have hbody : ¬(row.cmd.length < 2) := by omega
  have hres : cmdEndpoint hashFn hmacFn false req body fields (some dev) tbl
      = { status := 200, body := row.cmd,
          table := tbl.filter (fun r => !(r.id == row.id)) } := by
    simp [cmdEndpoint, hauth, hgp, hbody]
  have hgp2 : getPending (tbl.filter (fun r => !(r.id == row.id))) dev.id
      = ([], tbl.filter (fun r => !(r.id == row.id)), [.touch]) := by
    rw [getPending, ht1]
  refine ⟨by rw [hres], by rw [hres], by rw [hres]; exact ht1, ?_⟩
  rw [hres]
  simp [cmdEndpoint, hauth, hgp2]

/-- C5 witness: a table holding one ring envelope for device `d` yields
that envelope on the first poll and the empty object on the second. -/
theorem c5_poll_returns_and_consumes_witness :
    ([⟨7, ['d'], 5, ['r', 'r'], ['r']⟩] : List PendingRow).filter
        (fun r => r.deviceId == devAll.id) = [⟨7, ['d'], 5, ['r', 'r'], ['r']⟩] ∧
    2 ≤ (['r', 'r'] : Str).length ∧
    verifyHawkHeader (fun _ => ['X']) (fun _ _ => ['Y']) false
        ⟨"POST".data, ['/'], ['h'], "80".data, []⟩ []
        [("id".data, ['i']), ("ts".data, ['1']), ("nonce".data, ['n']),
         ("mac".data, ['Y'])] (some devAll) = true ∧
    (cmdEndpoint (fun _ => ['X']) (fun _ _ => ['Y']) false
        ⟨"POST".data, ['/'], ['h'], "80".data, []⟩ []
        [("id".data, ['i']), ("ts".data, ['1']), ("nonce".data, ['n']),
         ("mac".data, ['Y'])] (some devAll)
        [⟨7, ['d'], 5, ['r', 'r'], ['r']⟩]).body = ['r', 'r'] :=
  ⟨rfl, by decide, rfl,
   (c5_poll_returns_and_consumes (fun _ => ['X']) (fun _ _ => ['Y'])
     ⟨"POST".data, ['/'], ['h'], "80".data, []⟩ []
     [("id".data, ['i']), ("ts".data, ['1']), ("nonce".data, ['n']),
      ("mac".data, ['Y'])] devAll
     [⟨7, ['d'], 5, ['r', 'r'], ['r']⟩] ⟨7, ['d'], 5, ['r', 'r'], ['r']⟩
     rfl (by decide) rfl).2.1⟩

end WMF
